import Mathlib

/-!
Verification of the seat-reservation core of the adhyan-hub-access
application: the interval/slot conflict logic of the booking wizards, the
fixed-seat membership availability RPC, the pending-booking timeout job, the
floating/fixed seat constraint and the seats-status resync job, shallowly
embedded from the TypeScript components and the SQL migrations.

Instants (timestamps) and dates are modelled as integers; for the timeout
job the clock is measured in minutes, so the 30-minute grace window is the
literal bound 30.
-/

namespace AdhyanHub

/-- Slot discriminator of a booking: `slot IN ('day','night','full')`. -/
inductive Slot
  | day
  | night
  | full
deriving DecidableEq, Repr

/-- The `type` column of a booking: `'12hr'`, `'24hr'` or `'membership'`. -/
inductive BType
  | t12hr
  | t24hr
  | membership
deriving DecidableEq, Repr

/-- Booking `status` values occurring in the source: the original check
constraint lists `pending`, `confirmed`, `cancelled`, `request`, and the
timeout job writes `timeout`. -/
inductive BStatus
  | pending
  | confirmed
  | cancelled
  | request
  | timeout
deriving DecidableEq, Repr

/-- `payment_status` values occurring in the source. -/
inductive PayStatus
  | pending
  | paid
  | failed
  | timeout
deriving DecidableEq, Repr

/-- `seat_category IN ('fixed','floating')` per the bookings check constraint. -/
inductive SeatCategory
  | fixed
  | floating
deriving DecidableEq, Repr

/-- A half-open time interval given by start and end instants. -/
structure Interval where
  startT : Int
  endT : Int
deriving DecidableEq, Repr

/-- A row of the `seats` table: stable id and displayed seat number. -/
structure Seat where
  id : Nat
  seatNumber : Int
deriving DecidableEq, Repr

/-- A row of the `bookings` table, restricted to the columns the availability
and timeout logic reads or writes.  `seatId` is nullable (floating seats),
`slot` is nullable (membership bookings are inserted without a slot). -/
structure Booking where
  id : Nat
  seatId : Option Nat
  seatNumber : Int
  btype : BType
  slot : Option Slot
  status : BStatus
  paymentStatus : PayStatus
  startTime : Int
  endTime : Int
  membershipStartDate : Int
  membershipEndDate : Int
  seatCategory : SeatCategory
  createdAt : Int
  updatedAt : Int
deriving DecidableEq, Repr

/-- Half-open interval overlap as issued by the membership-period booking
wizard's query (`start_time.lt.toDate, end_time.gt.fromDate` in
`BookingWizard.fetchSeats`): true iff each interval starts strictly before
the other ends. -/
def intervalsOverlap (a b : Interval) : Bool :=
  decide (a.startT < b.endT) && decide (b.startT < a.endT)

/-- Inclusive overlap as issued by the legacy booking wizard's query
(`start_time.lte.endTime, end_time.gte.startTime`): touching endpoints count. -/
def legacyOverlap (b : Booking) (startT endT : Int) : Bool :=
  decide (b.startTime ≤ endT) && decide (b.endTime ≥ startT)

/-- Statuses treated as active by the membership-period wizard and the
availability RPC: `status IN ('confirmed','pending')`. -/
def activeStatus (s : BStatus) : Bool :=
  s == BStatus.confirmed || s == BStatus.pending

/-- The slot-conflict decision of `BookingWizard.fetchSeats` (membership-period
wizard) for one already-overlapping booking: a 24hr candidate conflicts with
anything; a 12hr candidate conflicts with 24hr/full bookings and with
bookings in the same slot. -/
def bookingConflicts (bookingType : BType) (currentSlot : Slot) (b : Booking) : Bool :=
  if bookingType == BType.t24hr then
    true
  else if bookingType == BType.t12hr then
    if b.btype == BType.t24hr || b.slot == some Slot.full then
      true
    else if b.slot == some currentSlot then
      true
    else
      false
  else
    false

/-- The per-pair conflict relation the membership-period wizard implements:
the query keeps a booking only when its interval overlaps the candidate
window (half-open), and the scan loop then applies the slot rules. -/
def reservationsConflict (bookingType : BType) (currentSlot : Slot)
    (cand : Interval) (b : Booking) : Bool :=
  intervalsOverlap ⟨b.startTime, b.endTime⟩ cand && bookingConflicts bookingType currentSlot b

/-- Whole verdict of `BookingWizard.fetchSeats` (membership-period wizard) for
one seat: some booking of the seat with active status and overlapping
interval passes the slot-conflict test. -/
def fetchSeatsHasConflict (bookingType : BType) (currentSlot : Slot)
    (fromT toT : Int) (seatId : Nat) (bookings : List Booking) : Bool :=
  (bookings.filter (fun b =>
      b.seatId == some seatId
        && activeStatus b.status
        && intervalsOverlap ⟨b.startTime, b.endTime⟩ ⟨fromT, toT⟩)).any
    (fun b => bookingConflicts bookingType currentSlot b)

/-- Verdict of the legacy `BookingWizard.fetchSeats`: a seat is available iff
no `confirmed` booking of the seat matches the inclusive-overlap query; no
slot logic and no `pending` status in the filter. -/
def legacySeatAvailable (seatId : Nat) (startT endT : Int)
    (bookings : List Booking) : Bool :=
  (bookings.filter (fun b =>
      b.seatId == some seatId
        && b.status == BStatus.confirmed
        && legacyOverlap b startT endT)).isEmpty

/-- Result row of the `check_seat_availability` RPC. -/
structure AvailabilityResult where
  isAvailable : Bool
  nextAvailableDate : Option Int
  conflictingBookingEnd : Option Int
deriving DecidableEq, Repr

/-- The three-disjunct date-range condition of `check_seat_availability`:
the booking covers the window start, covers the window end, or lies inside
the window (all endpoint comparisons inclusive). -/
def dateRangeCond (b : Booking) (s e : Int) : Bool :=
  (decide (b.membershipStartDate ≤ s) && decide (b.membershipEndDate ≥ s))
    || (decide (b.membershipStartDate ≤ e) && decide (b.membershipEndDate ≥ e))
    || (decide (b.membershipStartDate ≥ s) && decide (b.membershipEndDate ≤ e))

/-- The join `bookings b JOIN seats s ON b.seat_id = s.id` restricted to
`s.seat_number = seatNumber`. -/
def seatMatches (seats : List Seat) (b : Booking) (seatNumber : Int) : Bool :=
  seats.any (fun st => b.seatId == some st.id && st.seatNumber == seatNumber)

/-- The rows scanned by `check_seat_availability`: fixed-category bookings of
the requested seat with status in `{confirmed, pending}` whose membership
date range meets the three-disjunct condition. -/
def conflictCandidates (seatNumber s e : Int) (seats : List Seat)
    (bookings : List Booking) : List Booking :=
  bookings.filter (fun b =>
    seatMatches seats b seatNumber
      && b.seatCategory == SeatCategory.fixed
      && activeStatus b.status
      && dateRangeCond b s e)

/-- Maximum of a list of integers, `none` on the empty list; embeds the
`ORDER BY membership_end_date DESC LIMIT 1` selection. -/
def maxEnds : List Int → Option Int
  | [] => none
  | x :: xs =>
    match maxEnds xs with
    | none => some x
    | some m => some (max x m)

/-- The `check_seat_availability(seat_number, start_date, end_date)` RPC:
pick the latest `membership_end_date` among conflicting fixed bookings of
the seat; if one exists the seat is unavailable until that date plus one
day, otherwise it is available now. -/
def check_seat_availability (seatNumber s e : Int) (seats : List Seat)
    (bookings : List Booking) : AvailabilityResult :=
  match maxEnds ((conflictCandidates seatNumber s e seats bookings).map
      (fun b => b.membershipEndDate)) with
  | some m => ⟨false, some (m + 1), some m⟩
  | none => ⟨true, none, none⟩

/-- One row's transition in `timeout_pending_bookings`: a booking pending on
both status and payment and created more than 30 minutes ago becomes timed
out on both fields with its update timestamp refreshed; anything else is
untouched. -/
def timeoutStep (now : Int) (b : Booking) : Booking :=
  if b.status == BStatus.pending
      && b.paymentStatus == PayStatus.pending
      && decide (b.createdAt < now - 30) then
    { b with
        status := BStatus.timeout
        paymentStatus := PayStatus.timeout
        updatedAt := now }
  else
    b

/-- The `timeout_pending_bookings()` job as an update over the whole table. -/
def timeout_pending_bookings (now : Int) (bookings : List Booking) : List Booking :=
  bookings.map (timeoutStep now)

/-- The `bookings_seat_category_check` constraint:
`seat_category IN ('fixed','floating')`. -/
def bookings_seat_category_check (b : Booking) : Bool :=
  b.seatCategory == SeatCategory.fixed || b.seatCategory == SeatCategory.floating

/-- The `check_floating_seat_logic` constraint:
`seat_category = 'floating' OR (seat_category = 'fixed' AND seat_id IS NOT NULL)`. -/
def check_floating_seat_logic (b : Booking) : Bool :=
  b.seatCategory == SeatCategory.floating
    || (b.seatCategory == SeatCategory.fixed && b.seatId.isSome)

/-- Status written into the denormalized `seats_status` read model. -/
inductive GridStatus
  | available
  | occupied
deriving DecidableEq, Repr

/-- A row of the `seats_status` table. -/
structure SeatStatusRow where
  id : Nat
  seatNumber : Int
  status : GridStatus
  seatId : Option Nat
  bookingId : Option Nat
  updatedAt : Int
deriving DecidableEq, Repr

/-- The booking filter of `sync_seats_status`:
`payment_status = 'paid' AND status = 'confirmed' AND membership_end_date >= CURRENT_DATE`. -/
def syncActive (today : Int) (b : Booking) : Bool :=
  b.paymentStatus == PayStatus.paid
    && b.status == BStatus.confirmed
    && decide (b.membershipEndDate ≥ today)

/-- The `DISTINCT ON (seat_number) ... ORDER BY membership_end_date DESC`
pick: the first booking with the latest membership end date. -/
def pickLatest : List Booking → Option Booking
  | [] => none
  | b :: bs =>
    match pickLatest bs with
    | none => some b
    | some c => if c.membershipEndDate > b.membershipEndDate then some c else some b

/-- The `sync_seats_status()` resync: every seats-status row whose seat has an
active paid/confirmed booking is marked occupied and pointed at the latest
such booking; every other row is marked available with null references. -/
def sync_seats_status (today now : Int) (bookings : List Booking)
    (rows : List SeatStatusRow) : List SeatStatusRow :=
  rows.map (fun r =>
    match pickLatest (bookings.filter (fun b =>
        b.seatNumber == r.seatNumber && syncActive today b)) with
    | some b =>
      { r with
          status := GridStatus.occupied
          seatId := b.seatId
          bookingId := some b.id
          updatedAt := now }
    | none =>
      { r with
          status := GridStatus.available
          seatId := none
          bookingId := none
          updatedAt := now })

/-- Modelled from the spec: the claimed eligibility set of the
next-available-date calculator, selecting pending-or-confirmed fixed
bookings of the seat whose `[start_date, end_date]` overlaps the window
under inclusive-endpoint date-range overlap. -/
def claimEligible (seatNumber s e : Int) (seats : List Seat)
    (bookings : List Booking) : List Booking :=
  bookings.filter (fun b =>
    seatMatches seats b seatNumber
      && b.seatCategory == SeatCategory.fixed
      && activeStatus b.status
      && (decide (b.membershipStartDate ≤ e) && decide (b.membershipEndDate ≥ s)))

/-- Modelled from the spec: the claimed behaviour of the next-available-date
calculator — if no eligible reservation overlaps the window the seat is
available now, otherwise the result defers to the latest end date plus one
day. -/
def nextAvailableDateSpec (seatNumber s e : Int) (seats : List Seat)
    (bookings : List Booking) : AvailabilityResult :=
  match maxEnds ((claimEligible seatNumber s e seats bookings).map
      (fun b => b.membershipEndDate)) with
  | some m => ⟨false, some (m + 1), some m⟩
  | none => ⟨true, none, none⟩

/-- Order on optional next-available dates: `none` (available now) is below
everything, and present dates compare as integers. -/
def dateLE : Option Int → Option Int → Prop
  | none, _ => True
  | some _, none => False
  | some a, some b => a ≤ b

/-- A baseline confirmed fixed day booking on seat 1, used to build concrete
test rows. -/
def exBase : Booking :=
  { id := 0
    seatId := some 1
    seatNumber := 1
    btype := BType.t12hr
    slot := some Slot.day
    status := BStatus.confirmed
    paymentStatus := PayStatus.pending
    startTime := 0
    endTime := 10
    membershipStartDate := 0
    membershipEndDate := 10
    seatCategory := SeatCategory.fixed
    createdAt := 0
    updatedAt := 0 }

/-- A stale pending booking: pending on both fields, created at minute 0. -/
def exStale : Booking :=
  { exBase with status := BStatus.pending, paymentStatus := PayStatus.pending }

/-- An already timed-out booking. -/
def exTimedOut : Booking :=
  { exBase with status := BStatus.timeout, paymentStatus := PayStatus.timeout }

/-- A floating-category booking that nevertheless carries a seat reference. -/
def exFloatSeated : Booking :=
  { exBase with seatCategory := SeatCategory.floating, seatId := some 3 }

lemma snd_eq_of_mem_zip_map {α β : Type} (f : α → β) (l : List α) :
    ∀ p ∈ l.zip (l.map f), p.2 = f p.1 := by
  induction l with
  | nil => intro p hp; simp at hp
  | cons x xs ih =>
    intro p hp
    simp only [List.map_cons, List.zip_cons_cons, List.mem_cons] at hp
    rcases hp with h | h
    · subst h; rfl
    · exact ih p h

lemma timeoutStep_idem (now : Int) (b : Booking) :
    timeoutStep now (timeoutStep now b) = timeoutStep now b := by
  unfold timeoutStep
  split
  · simp
  · rfl

/-- C6: the timeout job transitions exactly the bookings that are pending on
both status and payment and were created more than 30 minutes before the
current instant, setting both fields to timed-out and refreshing only the
update timestamp; every other booking, and every other field of a
transitioned booking, is unchanged, and no row is added or removed. -/
theorem timeout_job_transitions_exactly_stale_pending (now : Int)
    (bookings : List Booking) :
    (timeout_pending_bookings now bookings).length = bookings.length ∧
    ∀ p ∈ bookings.zip (timeout_pending_bookings now bookings),
      (p.1.status = BStatus.pending ∧ p.1.paymentStatus = PayStatus.pending ∧
          p.1.createdAt < now - 30 →
        p.2.status = BStatus.timeout ∧ p.2.paymentStatus = PayStatus.timeout ∧
        p.2.updatedAt = now ∧ p.2.id = p.1.id ∧ p.2.seatId = p.1.seatId ∧
        p.2.seatNumber = p.1.seatNumber ∧ p.2.btype = p.1.btype ∧
        p.2.slot = p.1.slot ∧ p.2.startTime = p.1.startTime ∧
        p.2.endTime = p.1.endTime ∧
        p.2.membershipStartDate = p.1.membershipStartDate ∧
        p.2.membershipEndDate = p.1.membershipEndDate ∧
        p.2.seatCategory = p.1.seatCategory ∧ p.2.createdAt = p.1.createdAt) ∧
      (¬(p.1.status = BStatus.pending ∧ p.1.paymentStatus = PayStatus.pending ∧
          p.1.createdAt < now - 30) →
        p.2 = p.1) := by
  constructor
  · simp [timeout_pending_bookings]
  · intro p hp
    have hsnd := snd_eq_of_mem_zip_map (timeoutStep now) bookings p hp
    constructor
    · rintro ⟨h1, h2, h3⟩
      rw [hsnd]
      unfold timeoutStep
      rw [if_pos (by simp [h1, h2, h3])]
      refine ⟨rfl, rfl, rfl, rfl, rfl, rfl, rfl, rfl, rfl, rfl, rfl, rfl, rfl, rfl⟩
    · intro hn
      rw [hsnd]
      unfold timeoutStep
      rw [if_neg]
      intro hc
      simp only [Bool.and_eq_true, beq_iff_eq, decide_eq_true_eq] at hc
      exact hn ⟨hc.1.1, hc.1.2, hc.2⟩

/-- Witness for C6 at a concrete stale pending booking and instant 100. -/
theorem timeout_job_transitions_exactly_stale_pending_witness :
    (timeout_pending_bookings 100 [exStale]).length = [exStale].length ∧
    (timeoutStep 100 exStale).status = BStatus.timeout := by
  have h := timeout_job_transitions_exactly_stale_pending 100 [exStale]
  refine ⟨h.1, ?_⟩
  have hm : (exStale, timeoutStep 100 exStale) ∈
      [exStale].zip (timeout_pending_bookings 100 [exStale]) := by
    simp [timeout_pending_bookings]
  exact ((h.2 _ hm).1 ⟨rfl, rfl, by decide⟩).1

/-- C7: the timeout job is idempotent — at a fixed instant running it twice
equals running it once — and an already timed-out booking is never
transitioned again. -/
theorem timeout_job_idempotent :
    (∀ (now : Int) (l : List Booking),
      timeout_pending_bookings now (timeout_pending_bookings now l) =
        timeout_pending_bookings now l) ∧
    (∀ (now : Int) (b : Booking), b.status = BStatus.timeout →
      timeoutStep now b = b) := by
  constructor
  · intro now l
    unfold timeout_pending_bookings
    rw [List.map_map]
    exact List.map_congr_left (fun b _ => timeoutStep_idem now b)
  · intro now b h
    unfold timeoutStep
    rw [if_neg]
    simp [h]

/-- Witness for C7 at a concrete store and an already timed-out booking. -/
theorem timeout_job_idempotent_witness :
    timeout_pending_bookings 100 (timeout_pending_bookings 100 [exStale]) =
      timeout_pending_bookings 100 [exStale] ∧
    timeoutStep 100 exTimedOut = exTimedOut :=
  ⟨timeout_job_idempotent.1 100 [exStale], timeout_job_idempotent.2 100 exTimedOut rfl⟩

/-- Counterexample for C8: a floating booking carrying a non-null seat
reference passes both booking constraints, so a seat-bound reservation need
not have category fixed. -/
theorem floating_seat_constraint_converse_fails :
    check_floating_seat_logic exFloatSeated = true ∧
    bookings_seat_category_check exFloatSeated = true ∧
    exFloatSeated.seatId.isSome = true ∧
    exFloatSeated.seatCategory ≠ SeatCategory.fixed := by
  decide

/-- C8 (amended): every booking accepted by the `check_floating_seat_logic`
constraint with a null seat reference has category floating; equivalently a
fixed-category booking must be seat-bound.  The converse direction
(seat-bound implies fixed) is not part of the constraint. -/
theorem floating_seat_constraint_null_seat_forces_floating (b : Booking)
    (h : check_floating_seat_logic b = true) :
    (b.seatId = none → b.seatCategory = SeatCategory.floating) ∧
    (b.seatCategory = SeatCategory.fixed → b.seatId.isSome = true) := by
  unfold check_floating_seat_logic at h
  cases hc : b.seatCategory with
  | floating => exact ⟨fun _ => rfl, fun hf => absurd hf (by decide)⟩
  | fixed =>
    simp only [hc, Bool.or_eq_true, Bool.and_eq_true, beq_iff_eq] at h
    rcases h with h | h
    · cases h
    · refine ⟨fun hn => ?_, fun _ => h.2⟩
      rw [hn] at h
      simp at h

/-- Witness for C8 at the baseline fixed seat-bound booking. -/
theorem floating_seat_constraint_null_seat_forces_floating_witness :
    (exBase.seatId = none → exBase.seatCategory = SeatCategory.floating) ∧
    (exBase.seatCategory = SeatCategory.fixed → exBase.seatId.isSome = true) :=
  floating_seat_constraint_null_seat_forces_floating exBase (by decide)

/-- A night-slot 12hr booking on seat 1. -/
def exNight : Booking :=
  { exBase with slot := some Slot.night }

/-- A full-slot 24hr booking on seat 1. -/
def exFull : Booking :=
  { exBase with slot := some Slot.full, btype := BType.t24hr }

/-- C1: given overlapping intervals, the wizard's conflict verdict equals the
slot compatibility matrix — conflict iff either side is full/24hr or both
share the same slot — for reservations whose slot is full exactly when their
type is 24hr (the identification the booking inserts maintain). -/
theorem slot_compatibility_matrix (bt : BType) (cs : Slot) (cand : Interval)
    (b : Booking)
    (hbt : bt = BType.t12hr ∨ bt = BType.t24hr)
    (hcand : cs = Slot.full ↔ bt = BType.t24hr)
    (hbty : b.btype = BType.t12hr ∨ b.btype = BType.t24hr)
    (hbslot : ∃ sb : Slot, b.slot = some sb ∧ (sb = Slot.full ↔ b.btype = BType.t24hr))
    (hov : intervalsOverlap ⟨b.startTime, b.endTime⟩ cand = true) :
    reservationsConflict bt cs cand b =
      (cs == Slot.full || b.slot == some Slot.full || b.slot == some cs) := by
  obtain ⟨sb, hsb, hiff⟩ := hbslot
  unfold reservationsConflict bookingConflicts
  rw [hov, Bool.true_and, hsb]
  rcases hbt with h | h <;> subst h <;>
    rcases hbty with h2 | h2 <;> rw [h2] at hiff ⊢ <;>
      cases cs <;> cases sb <;>
        revert hcand hiff <;> decide

/-- Witness for C1: a day candidate against an overlapping night booking does
not conflict. -/
theorem slot_compatibility_matrix_witness :
    reservationsConflict BType.t12hr Slot.day ⟨0, 10⟩ exNight = false :=
  (slot_compatibility_matrix BType.t12hr Slot.day ⟨0, 10⟩ exNight
      (Or.inl rfl) (by decide) (Or.inl (by decide))
      ⟨Slot.night, by decide, by decide⟩ (by decide)).trans (by decide)

/-- Counterexample for C2: a zero-length candidate interval strictly inside a
booking satisfies the half-open overlap test and conflicts in the
membership-period wizard, and in the legacy wizard a booking whose end
merely touches the window start matches the inclusive query and occupies
the seat. -/
theorem halfopen_overlap_counterexample :
    (intervalsOverlap ⟨0, 10⟩ ⟨5, 5⟩ = true ∧
      reservationsConflict BType.t24hr Slot.full ⟨5, 5⟩ exFull = true) ∧
    (exBase.endTime = 10 ∧ legacyOverlap exBase 10 20 = true ∧
      legacySeatAvailable 1 10 20 [exBase] = false) := by
  decide

/-- C2 (amended): the membership-period wizard's overlap test is half-open —
true iff each interval starts strictly before the other ends — so intervals
that merely touch never conflict there; but a zero-length interval strictly
inside a booking does satisfy the test and a 24hr candidate then conflicts,
and the legacy wizard's query is inclusive, so a booking whose end touches
the window start still matches it. -/
theorem halfopen_overlap_amended :
    (∀ a b : Interval,
      intervalsOverlap a b = true ↔ a.startT < b.endT ∧ b.startT < a.endT) ∧
    (∀ (bt : BType) (cs : Slot) (cand : Interval) (b : Booking),
      b.endTime ≤ cand.startT ∨ cand.endT ≤ b.startTime →
      reservationsConflict bt cs cand b = false) ∧
    (∀ (b : Booking) (s e : Int), b.endTime = s → b.startTime ≤ e →
      legacyOverlap b s e = true) ∧
    (∀ (cand : Interval) (b : Booking), cand.startT = cand.endT →
      b.startTime < cand.startT → cand.endT < b.endTime →
      reservationsConflict BType.t24hr Slot.full cand b = true) := by
  refine ⟨?_, ?_, ?_, ?_⟩
  · intro a b
    unfold intervalsOverlap
    simp
  · intro bt cs cand b h
    unfold reservationsConflict intervalsOverlap
    rcases h with h | h
    · have hn : ¬ (cand.startT < b.endTime) := not_lt.mpr h
      simp [hn]
    · have hn : ¬ (b.startTime < cand.endT) := not_lt.mpr h
      simp [hn]
  · intro b s e h1 h2
    unfold legacyOverlap
    simp [h1, h2]
  · intro cand b h0 h1 h2
    have ha : b.startTime < cand.endT := h0 ▸ h1
    have hb : cand.startT < b.endTime := by rw [h0]; exact h2
    unfold reservationsConflict intervalsOverlap bookingConflicts
    simp [ha, hb]

/-- Witness for C2 (amended): a booking ending exactly at the window start
does not conflict in the membership-period wizard. -/
theorem halfopen_overlap_amended_witness :
    reservationsConflict BType.t12hr Slot.day ⟨10, 20⟩ exBase = false :=
  halfopen_overlap_amended.2.1 BType.t12hr Slot.day ⟨10, 20⟩ exBase
    (Or.inl (by decide))

/-- Counterexample for C3: a pending booking overlapping the requested window
does not occupy the seat in the legacy wizard's availability check, which
filters on status = confirmed only. -/
theorem pending_soft_hold_counterexample :
    exStale.status = BStatus.pending ∧
    legacyOverlap exStale 0 10 = true ∧
    legacySeatAvailable 1 0 10 [exStale] = true := by
  decide

lemma filter_active_absorb (p : Booking → Bool) (l : List Booking)
    (hp : ∀ b, p b = true → activeStatus b.status = true) :
    (l.filter (fun b => activeStatus b.status)).filter p = l.filter p := by
  induction l with
  | nil => rfl
  | cons x xs ih =>
    by_cases hA : activeStatus x.status = true
    · simp only [List.filter_cons, hA, if_true]
      cases hpx : p x <;> simp [hpx, ih]
    · have hpx : p x = false := by
        cases hpx : p x
        · rfl
        · exact absurd (hp x hpx) hA
      simp only [List.filter_cons, hA, if_false, hpx]
      simpa [hpx] using ih

/-- C3 (amended): in the membership-period wizard's grid check and in the
fixed-seat availability RPC the conflicting set is exactly the bookings
with status pending or confirmed — restricting the store to those statuses
never changes the verdict, and a pending booking alone can occupy a seat —
while the legacy wizard's check counts only confirmed bookings, so a
pending booking never occupies a seat there. -/
theorem active_status_filter_amended :
    (∀ (bt : BType) (cs : Slot) (fromT toT : Int) (sid : Nat)
        (bookings : List Booking),
      fetchSeatsHasConflict bt cs fromT toT sid
          (bookings.filter (fun b => activeStatus b.status)) =
        fetchSeatsHasConflict bt cs fromT toT sid bookings) ∧
    (∀ (seatN s e : Int) (seats : List Seat) (bookings : List Booking),
      check_seat_availability seatN s e seats
          (bookings.filter (fun b => activeStatus b.status)) =
        check_seat_availability seatN s e seats bookings) ∧
    (∀ (b : Booking) (bt : BType) (cs : Slot) (fromT toT : Int) (sid : Nat),
      b.status = BStatus.pending →
      b.seatId = some sid →
      intervalsOverlap ⟨b.startTime, b.endTime⟩ ⟨fromT, toT⟩ = true →
      bookingConflicts bt cs b = true →
      fetchSeatsHasConflict bt cs fromT toT sid [b] = true) ∧
    (∀ (b : Booking) (sid : Nat) (s e : Int), b.status = BStatus.pending →
      legacySeatAvailable sid s e [b] = true) := by
  refine ⟨?_, ?_, ?_, ?_⟩
  · intro bt cs fromT toT sid bookings
    unfold fetchSeatsHasConflict
    rw [filter_active_absorb _ bookings]
    intro b hb
    simp only [Bool.and_eq_true] at hb
    exact hb.1.2
  · intro seatN s e seats bookings
    unfold check_seat_availability conflictCandidates
    rw [filter_active_absorb _ bookings]
    intro b hb
    simp only [Bool.and_eq_true] at hb
    exact hb.1.2
  · intro b bt cs fromT toT sid h1 h2 h3 h4
    unfold fetchSeatsHasConflict activeStatus
    simp [h1, h2, h3, h4]
  · intro b sid s e h
    unfold legacySeatAvailable
    simp [h]

/-- Witness for C3 (amended): a single pending day booking occupies seat 1
for a day candidate in the membership-period wizard. -/
theorem active_status_filter_amended_witness :
    fetchSeatsHasConflict BType.t12hr Slot.day 0 10 1 [exStale] = true :=
  active_status_filter_amended.2.2.1 exStale BType.t12hr Slot.day 0 10 1
    rfl (by decide) (by decide) (by decide)

lemma maxEnds_eq_none {l : List Int} : maxEnds l = none ↔ l = [] := by
  cases l with
  | nil => simp [maxEnds]
  | cons x xs =>
    simp only [maxEnds]
    cases maxEnds xs <;> simp

lemma maxEnds_mem {l : List Int} {m : Int} (h : maxEnds l = some m) : m ∈ l := by
  induction l generalizing m with
  | nil => simp [maxEnds] at h
  | cons x xs ih =>
    simp only [maxEnds] at h
    cases hx : maxEnds xs with
    | none =>
      rw [hx] at h
      simp at h
      simp [h]
    | some k =>
      rw [hx] at h
      simp only [Option.some.injEq] at h
      rcases max_choice x k with hm | hm
    -- m = max x k is either x or k
      · rw [hm] at h; simp [h]
      · rw [hm] at h
        subst h
        exact List.mem_cons_of_mem x (ih hx)

lemma maxEnds_le {l : List Int} {m : Int} (h : maxEnds l = some m) :
    ∀ x ∈ l, x ≤ m := by
  induction l generalizing m with
  | nil => simp
  | cons x xs ih =>
    simp only [maxEnds] at h
    cases hx : maxEnds xs with
    | none =>
      rw [hx] at h
      simp only [Option.some.injEq] at h
      have hnil : xs = [] := maxEnds_eq_none.mp hx
      subst hnil
      simp [← h]
    | some k =>
      rw [hx] at h
      simp only [Option.some.injEq] at h
      intro y hy
      rcases List.mem_cons.mp hy with hy | hy
      · subst hy; rw [← h]; exact le_max_left _ _
      · exact le_trans (ih hx y hy) (h ▸ le_max_right x k)

lemma le_maxEnds_of_mem {l : List Int} {x : Int} (h : x ∈ l) :
    ∃ m, maxEnds l = some m ∧ x ≤ m := by
  cases hm : maxEnds l with
  | none =>
    rw [maxEnds_eq_none.mp hm] at h
    simp at h
  | some m => exact ⟨m, rfl, maxEnds_le hm x h⟩

lemma dateRangeCond_eq_inclusive (b : Booking) (s e : Int)
    (hb : b.membershipStartDate ≤ b.membershipEndDate) (hse : s ≤ e) :
    dateRangeCond b s e =
      (decide (b.membershipStartDate ≤ e) && decide (b.membershipEndDate ≥ s)) := by
  unfold dateRangeCond
  by_cases p1 : b.membershipStartDate ≤ s <;>
    by_cases p2 : b.membershipEndDate ≥ s <;>
      by_cases p3 : b.membershipStartDate ≤ e <;>
        by_cases p4 : b.membershipEndDate ≥ e <;>
          by_cases p5 : b.membershipStartDate ≥ s <;>
            by_cases p6 : b.membershipEndDate ≤ e <;>
              simp [p1, p2, p3, p4, p5, p6] <;> omega

lemma conflictCandidates_eq_claimEligible (seatN s e : Int) (seats : List Seat)
    (bookings : List Booking) (hse : s ≤ e)
    (hvalid : ∀ b ∈ bookings, b.membershipStartDate ≤ b.membershipEndDate) :
    conflictCandidates seatN s e seats bookings =
      claimEligible seatN s e seats bookings := by
  unfold conflictCandidates claimEligible
  apply List.filter_congr
  intro b hb
  rw [dateRangeCond_eq_inclusive b s e (hvalid b hb) hse]

/-- C4: for a window with start at most end over bookings with well-formed
membership date ranges, the `check_seat_availability` RPC returns exactly
what the claim describes: available-now with null dates when no
pending-or-confirmed fixed booking of the seat overlaps the window under
inclusive date-range overlap, and otherwise unavailable with the latest
conflicting end date and that date plus one day. -/
theorem next_available_date_matches_spec (seatN s e : Int) (seats : List Seat)
    (bookings : List Booking) (hse : s ≤ e)
    (hvalid : ∀ b ∈ bookings, b.membershipStartDate ≤ b.membershipEndDate) :
    check_seat_availability seatN s e seats bookings =
      nextAvailableDateSpec seatN s e seats bookings ∧
    (claimEligible seatN s e seats bookings = [] →
      check_seat_availability seatN s e seats bookings = ⟨true, none, none⟩) ∧
    (∀ m, maxEnds ((claimEligible seatN s e seats bookings).map
          (fun b => b.membershipEndDate)) = some m →
      check_seat_availability seatN s e seats bookings = ⟨false, some (m + 1), some m⟩ ∧
      m ∈ (claimEligible seatN s e seats bookings).map (fun b => b.membershipEndDate) ∧
      ∀ x ∈ (claimEligible seatN s e seats bookings).map (fun b => b.membershipEndDate),
        x ≤ m) := by
  have hcc := conflictCandidates_eq_claimEligible seatN s e seats bookings hse hvalid
  have hmain : check_seat_availability seatN s e seats bookings =
      nextAvailableDateSpec seatN s e seats bookings := by
    unfold check_seat_availability nextAvailableDateSpec
    rw [hcc]
  refine ⟨hmain, ?_, ?_⟩
  · intro hnil
    rw [hmain]
    unfold nextAvailableDateSpec
    rw [hnil]
    rfl
  · intro m hm
    refine ⟨?_, maxEnds_mem hm, maxEnds_le hm⟩
    rw [hmain]
    unfold nextAvailableDateSpec
    rw [hm]

/-- A confirmed fixed membership on seat 9 ending on day 10. -/
def ex9a : Booking :=
  { exBase with seatId := some 9, seatNumber := 9, membershipEndDate := 10 }

/-- A confirmed fixed membership on seat 9 ending on day 36, overlapping the
first one. -/
def ex9b : Booking :=
  { exBase with
      seatId := some 9
      seatNumber := 9
      membershipStartDate := 5
      membershipEndDate := 36 }

/-- Witness for C4, the two-overlapping-memberships scenario: the RPC defers
to the latest conflicting end date plus one day. -/
theorem next_available_date_matches_spec_witness :
    check_seat_availability 9 0 30 [⟨9, 9⟩] [ex9a, ex9b] =
      ⟨false, some 37, some 36⟩ :=
  ((next_available_date_matches_spec 9 0 30 [⟨9, 9⟩] [ex9a, ex9b]
      (by decide) (by decide)).2.2 36 (by decide)).1

lemma dateRangeCond_mono (b : Booking) (s e1 e2 : Int)
    (hb : b.membershipStartDate ≤ b.membershipEndDate)
    (hse : s ≤ e1) (h12 : e1 ≤ e2)
    (h : dateRangeCond b s e1 = true) : dateRangeCond b s e2 = true := by
  rw [dateRangeCond_eq_inclusive b s e1 hb hse] at h
  rw [dateRangeCond_eq_inclusive b s e2 hb (le_trans hse h12)]
  simp only [Bool.and_eq_true, decide_eq_true_eq] at h ⊢
  exact ⟨le_trans h.1 h12, h.2⟩

lemma conflictCandidates_mono (seatN s e1 e2 : Int) (seats : List Seat)
    (bookings : List Booking) (hse : s ≤ e1) (h12 : e1 ≤ e2)
    (hvalid : ∀ b ∈ bookings, b.membershipStartDate ≤ b.membershipEndDate)
    (b : Booking) (h : b ∈ conflictCandidates seatN s e1 seats bookings) :
    b ∈ conflictCandidates seatN s e2 seats bookings := by
  unfold conflictCandidates at h ⊢
  rw [List.mem_filter] at h ⊢
  refine ⟨h.1, ?_⟩
  have h2 := h.2
  simp only [Bool.and_eq_true] at h2 ⊢
  exact ⟨h2.1, dateRangeCond_mono b s e1 e2 (hvalid b h.1) hse h12 h2.2⟩

/-- C5: extending the candidate window's end date (a longer requested
duration) never decreases the next available date computed by the RPC, with
availability-now ordered below every deferred date. -/
theorem next_available_date_monotone (seatN s e1 e2 : Int) (seats : List Seat)
    (bookings : List Booking) (hse : s ≤ e1) (h12 : e1 ≤ e2)
    (hvalid : ∀ b ∈ bookings, b.membershipStartDate ≤ b.membershipEndDate) :
    dateLE (check_seat_availability seatN s e1 seats bookings).nextAvailableDate
      (check_seat_availability seatN s e2 seats bookings).nextAvailableDate := by
  cases hm1 : maxEnds ((conflictCandidates seatN s e1 seats bookings).map
      (fun b => b.membershipEndDate)) with
  | none =>
    unfold check_seat_availability
    rw [hm1]
    cases hm2 : maxEnds ((conflictCandidates seatN s e2 seats bookings).map
        (fun b => b.membershipEndDate)) <;> simp [dateLE]
  | some m =>
    have hmem := maxEnds_mem hm1
    rw [List.mem_map] at hmem
    obtain ⟨b, hb, hbe⟩ := hmem
    have hb2 := conflictCandidates_mono seatN s e1 e2 seats bookings hse h12 hvalid b hb
    have hmem2 : m ∈ (conflictCandidates seatN s e2 seats bookings).map
        (fun b => b.membershipEndDate) := by
      rw [List.mem_map]
      exact ⟨b, hb2, hbe⟩
    obtain ⟨m2, hm2, hle⟩ := le_maxEnds_of_mem hmem2
    unfold check_seat_availability
    rw [hm1, hm2]
    simpa [dateLE] using hle

/-- Witness for C5: widening the window from end 15 to end 40 moves the next
available date later (or keeps it equal), here from day 11 to day 37. -/
theorem next_available_date_monotone_witness :
    dateLE (check_seat_availability 9 0 4 [⟨9, 9⟩] [ex9a, ex9b]).nextAvailableDate
      (check_seat_availability 9 0 30 [⟨9, 9⟩] [ex9a, ex9b]).nextAvailableDate :=
  next_available_date_monotone 9 0 4 30 [⟨9, 9⟩] [ex9a, ex9b]
    (by decide) (by decide) (by decide)

lemma pickLatest_eq_none {l : List Booking} : pickLatest l = none ↔ l = [] := by
  cases l with
  | nil => simp [pickLatest]
  | cons b bs =>
    simp only [pickLatest]
    cases hp : pickLatest bs with
    | none => simp
    | some c =>
      show (if c.membershipEndDate > b.membershipEndDate then some c else some b) =
          none ↔ b :: bs = []
      by_cases hgt : c.membershipEndDate > b.membershipEndDate <;> simp [hgt]

/-- A pending, unpaid 24hr/full booking on seat 1 covering the current window
with a live membership end date. -/
def exPendingNow : Booking :=
  { exBase with
      status := BStatus.pending
      paymentStatus := PayStatus.pending
      slot := some Slot.full
      btype := BType.t24hr }

/-- A seats-status row for seat 1. -/
def exRow : SeatStatusRow :=
  { id := 0
    seatNumber := 1
    status := GridStatus.available
    seatId := none
    bookingId := none
    updatedAt := 0 }

/-- Counterexample for C9: with a pending unpaid full booking covering the
window, the membership-period wizard's grid verdict marks seat 1 occupied
while the resync writes available for it, so the resync verdict does not
equal the grid verdict. -/
theorem sync_vs_grid_counterexample :
    fetchSeatsHasConflict BType.t24hr Slot.full 0 10 1 [exPendingNow] = true ∧
    (sync_seats_status 0 0 [exPendingNow] [exRow]).map (fun r => r.status) =
      [GridStatus.available] := by
  decide

/-- C9 (amended): the seats-status resync is idempotent for a fixed booking
store and instant, and the verdict it writes marks a seat occupied exactly
when some paid, confirmed booking of that seat number has a membership end
date at or after the current date — a verdict that, unlike the wizard's
grid computation, ignores pending bookings, slots and time intervals. -/
theorem sync_seats_status_idempotent :
    (∀ (today now : Int) (bookings : List Booking) (rows : List SeatStatusRow),
      sync_seats_status today now bookings
          (sync_seats_status today now bookings rows) =
        sync_seats_status today now bookings rows) ∧
    (∀ (today now : Int) (bookings : List Booking) (rows : List SeatStatusRow),
      (sync_seats_status today now bookings rows).map (fun r => r.status) =
        rows.map (fun r =>
          if bookings.any (fun b => b.seatNumber == r.seatNumber && syncActive today b)
          then GridStatus.occupied else GridStatus.available)) := by
  constructor
  · intro today now bookings rows
    unfold sync_seats_status
    rw [List.map_map]
    apply List.map_congr_left
    intro r _
    simp only [Function.comp]
    cases hp : pickLatest (bookings.filter (fun b =>
        b.seatNumber == r.seatNumber && syncActive today b)) with
    | some b => simp [hp]
    | none => simp [hp]
  · intro today now bookings rows
    unfold sync_seats_status
    rw [List.map_map]
    apply List.map_congr_left
    intro r _
    simp only [Function.comp]
    cases hp : pickLatest (bookings.filter (fun b =>
        b.seatNumber == r.seatNumber && syncActive today b)) with
    | some b =>
      have hne : bookings.filter (fun b =>
          b.seatNumber == r.seatNumber && syncActive today b) ≠ [] := by
        intro hnil
        rw [pickLatest_eq_none.mpr hnil] at hp
        cases hp
      obtain ⟨x, hx⟩ := List.exists_mem_of_ne_nil _ hne
      rw [List.mem_filter] at hx
      have hany : bookings.any (fun b =>
          b.seatNumber == r.seatNumber && syncActive today b) = true :=
        List.any_eq_true.mpr ⟨x, hx.1, hx.2⟩
      simp [sync_seats_status, hp, hany]
    | none =>
      have hnil := pickLatest_eq_none.mp hp
      have hany : bookings.any (fun b =>
          b.seatNumber == r.seatNumber && syncActive today b) = false := by
        rw [← Bool.not_eq_true, List.any_eq_true]
        rintro ⟨x, hx1, hx2⟩
        have : x ∈ bookings.filter (fun b =>
            b.seatNumber == r.seatNumber && syncActive today b) :=
          List.mem_filter.mpr ⟨hx1, hx2⟩
        rw [hnil] at this
        cases this
      simp [sync_seats_status, hp, hany]

lemma filter_map_update_slot (p : Booking → Bool) (g : Booking → Int)
    (hp : ∀ b v, p { b with slot := v } = p b)
    (hg : ∀ b v, g { b with slot := v } = g b)
    (f : Booking → Option Slot) (l : List Booking) :
    ((l.map (fun b => { b with slot := f b })).filter p).map g =
      (l.filter p).map g := by
  induction l with
  | nil => rfl
  | cons x xs ih =>
    simp only [List.map_cons, List.filter_cons, hp x (f x)]
    cases hpx : p x <;> simp [hpx, ih, hg x (f x)]

/-- C10: the fixed-seat membership availability RPC is slot-blind —
reassigning every stored booking's slot arbitrarily never changes its
result — and any pending-or-confirmed fixed booking of the seat whose date
range meets the window blocks the request, whatever its slot. -/
theorem availability_rpc_slot_blind :
    (∀ (seatN s e : Int) (seats : List Seat) (bookings : List Booking)
        (f : Booking → Option Slot),
      check_seat_availability seatN s e seats
          (bookings.map (fun b => { b with slot := f b })) =
        check_seat_availability seatN s e seats bookings) ∧
    (∀ (seatN s e : Int) (seats : List Seat) (bookings : List Booking)
        (b : Booking),
      b ∈ bookings → seatMatches seats b seatN = true →
      b.seatCategory = SeatCategory.fixed → activeStatus b.status = true →
      dateRangeCond b s e = true →
      (check_seat_availability seatN s e seats bookings).isAvailable = false) := by
  constructor
  · intro seatN s e seats bookings f
    unfold check_seat_availability conflictCandidates
    rw [filter_map_update_slot]
    · intro b v; rfl
    · intro b v; rfl
  · intro seatN s e seats bookings b hmem h1 h2 h3 h4
    have hb : b ∈ conflictCandidates seatN s e seats bookings := by
      unfold conflictCandidates
      rw [List.mem_filter]
      exact ⟨hmem, by simp [h1, h2, h3, h4]⟩
    have hend : b.membershipEndDate ∈
        (conflictCandidates seatN s e seats bookings).map
          (fun b => b.membershipEndDate) :=
      List.mem_map_of_mem _ hb
    obtain ⟨m, hm, _⟩ := le_maxEnds_of_mem hend
    unfold check_seat_availability
    rw [hm]

/-- Witness for C10: a pending day-slot fixed booking on seat 1 blocks a
membership request whose window its dates overlap. -/
theorem availability_rpc_slot_blind_witness :
    (check_seat_availability 1 0 30 [⟨1, 1⟩] [exStale]).isAvailable = false :=
  availability_rpc_slot_blind.2 1 0 30 [⟨1, 1⟩] [exStale] exStale
    (by decide) (by decide) rfl (by decide) (by decide)

end AdhyanHub
